import Mathlib

/-!
Verification development for the Battleship rules engine
(`server/py/battleship.py`).

The Python classes are embedded as Lean structures, and the mutating
methods of the `Battleship` engine become functions that pass the engine
state explicitly.  Python exceptions (`IndexError` from list indexing,
`StopIteration` from `next(...)` with no default) are modelled with
`Except`.  Python's in-place mutation of shared `Ship` objects is
rendered as functional update of the list entry the code addresses; the
one place where reference sharing is observable to the claims —
`get_player_view` returning `self.state` itself and clearing ship
locations through it — is modelled explicitly by returning the updated
engine together with the view.
-/

namespace BattleshipGame

/-- `ActionType(str, Enum)` from the source. -/
inductive ActionType where
  | SET_SHIP
  | SHOOT
deriving DecidableEq, Repr

/-- `GamePhase(str, Enum)` from the source. -/
inductive GamePhase where
  | SETUP
  | RUNNING
  | FINISHED
deriving DecidableEq, Repr

/-- `BattleshipAction(BaseModel)`: `action_type`, `ship_name`
(optional, only for SET_SHIP), `location`. -/
structure BattleshipAction where
  action_type : ActionType
  ship_name : Option String
  location : List String
deriving DecidableEq, Repr

/-- `Ship(BaseModel)`: name, length, location.  The engine always
creates ships with a concrete coordinate list (the roster is built with
`location=[]` and `apply_action` assigns lists), so the pydantic
`Optional` default `None` never occurs in engine-made states and
`location` is embedded as `List String`. -/
structure Ship where
  name : String
  length : Nat
  location : List String
deriving DecidableEq, Repr

/-- `PlayerState`: per-player ships, shots, successful shots. -/
structure PlayerState where
  name : String
  ships : List Ship
  shots : List String
  successful_shots : List String
deriving DecidableEq, Repr

/-- `BattleshipGameState(BaseModel)`.  `idx_player_active` is an `int`
in the source; all states the claims touch have it in `{0, 1}`, and it
is embedded as `Nat` (so the source's `1 - idx` is truncated
subtraction, which agrees with Python on `{0, 1}`). -/
structure BattleshipGameState where
  idx_player_active : Nat
  phase : GamePhase
  winner : Option Nat
  players : List PlayerState
deriving DecidableEq, Repr

/-- Python exceptions the engine code can raise. -/
inductive PyError where
  /-- `IndexError`: list subscript out of range
  (`players[i]`, `action.location[0]`). -/
  | indexError
  /-- `StopIteration`: raised by `next(s for s in self.ships if
  s.name == action.ship_name)` when no roster ship matches; this is the
  condition the spec names `UnknownShipError`. -/
  | unknownShip
deriving DecidableEq, Repr

/-- The engine (`Battleship` class): grid size, canonical roster
(`self.ships`), current state (`self.state`). -/
structure Battleship where
  grid_size : Nat
  ships : List Ship
  state : BattleshipGameState
deriving DecidableEq, Repr

/-- Python list subscript `l[i]` for a non-negative index:
`IndexError` when out of range. -/
def listGet (l : List α) (i : Nat) : Except PyError α :=
  match l[i]? with
  | some a => Except.ok a
  | none => Except.error PyError.indexError

/-- The coordinate string `f"{chr(65 + i)}{k + 1}"` for row `i`,
zero-based column `k`. -/
def cell (i k : Nat) : String :=
  (Char.ofNat (65 + i)).toString ++ toString (k + 1)

/-- `Battleship.__init__`. -/
def Battleship.init : Battleship :=
  { grid_size := 10
  , ships :=
      [ { name := "Carrier", length := 5, location := [] }
      , { name := "Battleship", length := 4, location := [] }
      , { name := "Cruiser", length := 3, location := [] }
      , { name := "Submarine", length := 3, location := [] }
      , { name := "Destroyer", length := 2, location := [] } ]
  , state :=
      { idx_player_active := 0
      , phase := GamePhase.SETUP
      , winner := none
      , players :=
          [ { name := "Player 1", ships := [], shots := [], successful_shots := [] }
          , { name := "Player 2", ships := [], shots := [], successful_shots := [] } ] } }

/-- `get_state`: returns `self.state` (by reference in Python; the
reference aspect matters only in `get_player_view`, see below). -/
def Battleship.get_state (g : Battleship) : BattleshipGameState :=
  g.state

/-- `set_state`: replaces `self.state` wholesale. -/
def Battleship.set_state (g : Battleship) (s : BattleshipGameState) : Battleship :=
  { g with state := s }

/-- `get_list_action`. In SETUP the inner bound is Python's
`range(self.grid_size - ship.length + 1)`; over `Nat` that count is
`grid_size + 1 - ship.length`, which agrees with Python for every
`length` (Python's `range` of a negative is empty, and truncated
subtraction clamps at the same point). -/
def Battleship.get_list_action (g : Battleship) : Except PyError (List BattleshipAction) :=
  match listGet g.state.players g.state.idx_player_active with
  | Except.error e => Except.error e
  | Except.ok active =>
    match g.state.phase with
    | GamePhase.SETUP =>
      if h : active.ships.length < g.ships.length then
        let ship := g.ships.get ⟨active.ships.length, h⟩
        Except.ok ((List.range g.grid_size).flatMap (fun i =>
          (List.range (g.grid_size + 1 - ship.length)).map (fun j =>
            { action_type := ActionType.SET_SHIP
            , ship_name := some ship.name
            , location := (List.range' j ship.length).map (fun k => cell i k) })))
      else
        Except.ok []
    | GamePhase.RUNNING =>
      Except.ok ((List.range g.grid_size).flatMap (fun i =>
        (List.range g.grid_size).filterMap (fun j =>
          let target := cell i j
          if target ∈ active.shots then none
          else some { action_type := ActionType.SHOOT, ship_name := none, location := [target] })))
    | GamePhase.FINISHED => Except.ok []

/-- `ship.location = action.location` on the object found by
`next(...)`: functional update of the first roster entry whose name
matches. -/
def setFirstLocation (shipName : Option String) (loc : List String) : List Ship → List Ship
  | [] => []
  | s :: rest =>
    if some s.name == shipName then { s with location := loc } :: rest
    else s :: setFirstLocation shipName loc rest

/-- The SHOOT hit loop: scan the opponent's ships in list order; for
the first ship whose location contains the target, remove the first
occurrence of the target (`list.remove`) and stop (`break`).  Returns
the updated ship list and whether a hit was recorded. -/
def processShot (target : String) : List Ship → List Ship × Bool
  | [] => ([], false)
  | s :: rest =>
    if target ∈ s.location then
      ({ s with location := s.location.erase target } :: rest, true)
    else
      let pr := processShot target rest
      (s :: pr.1, pr.2)

/-- The trailing turn advance of `apply_action`:
`if self.state.phase == GamePhase.RUNNING: idx = 1 - idx`. -/
def finishTurn (g : Battleship) : Battleship :=
  if g.state.phase == GamePhase.RUNNING then
    { g with state := { g.state with idx_player_active := 1 - g.state.idx_player_active } }
  else g

/-- `apply_action`.  For SET_SHIP, the ship object found in the roster
is mutated and appended to the active player's list (the Python code
shares the object; here the identical updated value is written to
both places).  The RUNNING-phase check at the end compares against
`len(self.ships)` of the (location-updated) roster, whose length is
unchanged.  One divergence from Python is unobservable to the claims:
on an `IndexError` raised after `shots.append` (opponent lookup with a
too-short player list) Python leaves the partial mutation behind,
while the `Except` model discards it. -/
def Battleship.apply_action (g : Battleship) (action : BattleshipAction) : Except PyError Battleship :=
  match listGet g.state.players g.state.idx_player_active with
  | Except.error e => Except.error e
  | Except.ok active =>
    match action.action_type with
    | ActionType.SET_SHIP =>
      match g.ships.find? (fun s => some s.name == action.ship_name) with
      | none => Except.error PyError.unknownShip
      | some s =>
        let placed : Ship := { s with location := action.location }
        let ships' := setFirstLocation action.ship_name action.location g.ships
        let active' := { active with ships := active.ships ++ [placed] }
        let players' := g.state.players.set g.state.idx_player_active active'
        let phase' :=
          if active'.ships.length == ships'.length
              && players'.all (fun p => p.ships.length == ships'.length)
          then GamePhase.RUNNING else g.state.phase
        Except.ok (finishTurn
          { g with
            ships := ships'
            state := { g.state with players := players', phase := phase' } })
    | ActionType.SHOOT =>
      match action.location with
      | [] => Except.error PyError.indexError
      | target :: _ =>
        let active1 := { active with shots := active.shots ++ [target] }
        match listGet g.state.players (1 - g.state.idx_player_active) with
        | Except.error e => Except.error e
        | Except.ok opponent =>
          let pr := processShot target opponent.ships
          let active2 :=
            if pr.2 then
              { active1 with successful_shots := active1.successful_shots ++ [target] }
            else active1
          let players2 :=
            (g.state.players.set g.state.idx_player_active active2).set
              (1 - g.state.idx_player_active) { opponent with ships := pr.1 }
          let fin := pr.1.all (fun s => s.location.length == 0)
          Except.ok (finishTurn
            { g with
              state :=
                { g.state with
                  players := players2
                  phase := if fin then GamePhase.FINISHED else g.state.phase
                  winner := if fin then some g.state.idx_player_active else g.state.winner } })

/-- `get_player_view`.  `state_copy = self.get_state()` returns the
engine's own state object (no copy), and the loop then clears each
opponent ship's location through it, so the canonical state is mutated
and the returned view *is* the engine's post-call state.  Both are
returned: the view and the updated engine. -/
def Battleship.get_player_view (g : Battleship) (idx_player : Nat) :
    Except PyError (BattleshipGameState × Battleship) :=
  match listGet g.state.players (1 - idx_player) with
  | Except.error e => Except.error e
  | Except.ok opponent =>
    let cleared := { opponent with ships := opponent.ships.map (fun s => { s with location := [] }) }
    let s' := { g.state with players := g.state.players.set (1 - idx_player) cleared }
    Except.ok (s', { g with state := s' })

/-- States reachable from a freshly constructed engine by successful
`apply_action` steps with arbitrary actions (no `set_state`). -/
inductive Reachable : Battleship → Prop where
  | init : Reachable Battleship.init
  | step {g g' : Battleship} {a : BattleshipAction} :
      Reachable g → g.apply_action a = Except.ok g' → Reachable g'

/-- States reachable from a freshly constructed engine by successful
`apply_action` steps restricted to actions returned by
`get_list_action` (no `set_state`). -/
inductive ReachableLegal : Battleship → Prop where
  | init : ReachableLegal Battleship.init
  | step {g g' : Battleship} {a : BattleshipAction} {l : List BattleshipAction} :
      ReachableLegal g → g.get_list_action = Except.ok l → a ∈ l →
      g.apply_action a = Except.ok g' → ReachableLegal g'

/-- A state one legal SET_SHIP short of full placement: player 0 active
with 4 roster ships placed, player 1 already holding all 5 (such a
state is only enterable through `set_state`). -/
def fourFiveState : BattleshipGameState :=
  { idx_player_active := 0
  , phase := GamePhase.SETUP
  , winner := none
  , players :=
      [ { name := "Player 1"
        , ships :=
            [ { name := "Carrier", length := 5, location := ["A1", "A2", "A3", "A4", "A5"] }
            , { name := "Battleship", length := 4, location := ["B1", "B2", "B3", "B4"] }
            , { name := "Cruiser", length := 3, location := ["C1", "C2", "C3"] }
            , { name := "Submarine", length := 3, location := ["D1", "D2", "D3"] } ]
        , shots := [], successful_shots := [] }
      , { name := "Player 2"
        , ships :=
            [ { name := "Carrier", length := 5, location := ["F1", "F2", "F3", "F4", "F5"] }
            , { name := "Battleship", length := 4, location := ["G1", "G2", "G3", "G4"] }
            , { name := "Cruiser", length := 3, location := ["H1", "H2", "H3"] }
            , { name := "Submarine", length := 3, location := ["I1", "I2", "I3"] }
            , { name := "Destroyer", length := 2, location := ["J1", "J2"] } ]
        , shots := [], successful_shots := [] } ] }

/-- A RUNNING state where player 1 owns a single damaged-free Destroyer
at A1, A2. -/
def oneShipState : BattleshipGameState :=
  { idx_player_active := 0
  , phase := GamePhase.RUNNING
  , winner := none
  , players :=
      [ { name := "Player 1", ships := [], shots := [], successful_shots := [] }
      , { name := "Player 2"
        , ships := [{ name := "Destroyer", length := 2, location := ["A1", "A2"] }]
        , shots := [], successful_shots := [] } ] }

/-- A RUNNING state where player 1's ship list holds two overlapping
ships, listed in the reverse of roster order: the Destroyer and the
Carrier both contain A1, and the Destroyer comes first in the list. -/
def overlapState : BattleshipGameState :=
  { idx_player_active := 0
  , phase := GamePhase.RUNNING
  , winner := none
  , players :=
      [ { name := "Player 1", ships := [], shots := [], successful_shots := [] }
      , { name := "Player 2"
        , ships :=
            [ { name := "Destroyer", length := 2, location := ["A1", "A2"] }
            , { name := "Carrier", length := 5, location := ["A1", "B1", "B2", "B3", "B4"] } ]
        , shots := [], successful_shots := [] } ] }

/-- A RUNNING state where player 1's ship list is empty. -/
def emptyFleetState : BattleshipGameState :=
  { idx_player_active := 0
  , phase := GamePhase.RUNNING
  , winner := none
  , players :=
      [ { name := "Player 1", ships := [], shots := ["A1"], successful_shots := [] }
      , { name := "Player 2", ships := [], shots := [], successful_shots := [] } ] }

/-- The active player's record after a SHOOT at `t`: the target is
appended to `shots` (`active_player.shots.append`), and to
`successful_shots` exactly when the hit loop recorded a hit. -/
def shooterAfter (p : PlayerState) (t : String) (hit : Bool) : PlayerState :=
  if hit then
    { p with shots := p.shots ++ [t], successful_shots := p.successful_shots ++ [t] }
  else
    { p with shots := p.shots ++ [t] }

/-! ## Helper lemmas -/

theorem elem?_set_self {α : Type} (l : List α) (i : Nat) (v : α) (h : i < l.length) :
    (l.set i v)[i]? = some v := by
  induction l generalizing i with
  | nil => simp at h
  | cons x xs ih =>
    cases i with
    | zero => simp
    | succ n => simpa using ih n (by simpa using h)

theorem elem?_set_ne {α : Type} (l : List α) (i j : Nat) (v : α) (h : i ≠ j) :
    (l.set i v)[j]? = l[j]? := by
  induction l generalizing i j with
  | nil => rfl
  | cons x xs ih =>
    cases i with
    | zero =>
      cases j with
      | zero => exact absurd rfl h
      | succ m => simp
    | succ n =>
      cases j with
      | zero => simp
      | succ m => simpa using ih n m (fun hnm => h (by rw [hnm]))

theorem length_set_eq {α : Type} (l : List α) (i : Nat) (v : α) :
    (l.set i v).length = l.length := by
  induction l generalizing i with
  | nil => rfl
  | cons x xs ih => cases i with
    | zero => rfl
    | succ n => simp [ih n]

theorem elem?_lt_length {α : Type} {l : List α} {i : Nat} {v : α} (h : l[i]? = some v) :
    i < l.length := by
  induction l generalizing i with
  | nil => simp at h
  | cons x xs ih =>
    cases i with
    | zero => simp
    | succ n =>
      simp only [List.getElem?_cons_succ] at h
      simpa using ih h

theorem one_sub_ne {n : Nat} : 1 - n ≠ n := by omega

theorem setFirstLocation_length (shipName : Option String) (loc : List String) (l : List Ship) :
    (setFirstLocation shipName loc l).length = l.length := by
  induction l with
  | nil => rfl
  | cons s rest ih =>
    by_cases h : (some s.name == shipName) = true
    · simp [setFirstLocation, h]
    · simp [setFirstLocation, h, ih]

theorem processShot_miss (t : String) (l : List Ship) (h : ∀ s ∈ l, t ∉ s.location) :
    processShot t l = (l, false) := by
  induction l with
  | nil => rfl
  | cons s rest ih =>
    have hs : t ∉ s.location := h s (List.mem_cons_self s rest)
    have hrest := ih (fun u hu => h u (List.mem_cons_of_mem s hu))
    simp [processShot, hs, hrest]

theorem processShot_hit (t : String) (pre : List Ship) (s : Ship) (post : List Ship)
    (hpre : ∀ u ∈ pre, t ∉ u.location) (hs : t ∈ s.location) :
    processShot t (pre ++ s :: post) =
      (pre ++ { s with location := s.location.erase t } :: post, true) := by
  induction pre with
  | nil => simp [processShot, hs]
  | cons u us ih =>
    have hu : t ∉ u.location := hpre u (List.mem_cons_self u us)
    have hrest := ih (fun v hv => hpre v (List.mem_cons_of_mem u hv))
    simp [processShot, hu, hrest]

theorem finishTurn_ships (g : Battleship) :
    (finishTurn g).ships = g.ships := by
  unfold finishTurn; split <;> rfl

theorem finishTurn_players (g : Battleship) :
    (finishTurn g).state.players = g.state.players := by
  unfold finishTurn; split <;> rfl

theorem finishTurn_phase (g : Battleship) :
    (finishTurn g).state.phase = g.state.phase := by
  unfold finishTurn; split <;> rfl

theorem finishTurn_winner (g : Battleship) :
    (finishTurn g).state.winner = g.state.winner := by
  unfold finishTurn; split <;> rfl

theorem finishTurn_idx (g : Battleship) :
    (finishTurn g).state.idx_player_active =
      if g.state.phase = GamePhase.RUNNING then 1 - g.state.idx_player_active
      else g.state.idx_player_active := by
  unfold finishTurn
  by_cases h : g.state.phase = GamePhase.RUNNING <;> simp [h]

/-- Unfolding of `apply_action` on a SHOOT action when both player
lookups succeed. -/
theorem apply_action_shoot (g : Battleship) (a : BattleshipAction)
    (p q : PlayerState) (t : String) (ts : List String)
    (hp : g.state.players[g.state.idx_player_active]? = some p)
    (hq : g.state.players[1 - g.state.idx_player_active]? = some q)
    (ht : a.action_type = ActionType.SHOOT)
    (hloc : a.location = t :: ts) :
    g.apply_action a =
      Except.ok (finishTurn
        { g with
          state :=
            { g.state with
              players :=
                (g.state.players.set g.state.idx_player_active
                    (shooterAfter p t (processShot t q.ships).2)).set
                  (1 - g.state.idx_player_active)
                  { q with ships := (processShot t q.ships).1 }
              phase :=
                if (processShot t q.ships).1.all (fun s => s.location.length == 0)
                then GamePhase.FINISHED else g.state.phase
              winner :=
                if (processShot t q.ships).1.all (fun s => s.location.length == 0)
                then some g.state.idx_player_active else g.state.winner } }) := by
  simp only [Battleship.apply_action, listGet, hp, hq, ht, hloc, shooterAfter]

/-- Unfolding of `get_list_action` during SETUP while the active
player still has ships to place. -/
theorem get_list_action_setup (g : Battleship) (p : PlayerState) (ship : Ship)
    (hp : g.state.players[g.state.idx_player_active]? = some p)
    (hphase : g.state.phase = GamePhase.SETUP)
    (hlt : p.ships.length < g.ships.length)
    (hship : g.ships[p.ships.length]? = some ship) :
    g.get_list_action =
      Except.ok ((List.range g.grid_size).flatMap (fun i =>
        (List.range (g.grid_size + 1 - ship.length)).map (fun j =>
          { action_type := ActionType.SET_SHIP
          , ship_name := some ship.name
          , location := (List.range' j ship.length).map (fun k => cell i k) }))) := by
  have hs : g.ships.get ⟨p.ships.length, hlt⟩ = ship := by
    have h1 : g.ships[p.ships.length]? = some (g.ships.get ⟨p.ships.length, hlt⟩) := by
      simp [List.getElem?_eq_getElem hlt]
    rw [h1] at hship
    exact Option.some.inj hship
  simp only [Battleship.get_list_action, listGet, hp, hphase]
  rw [dif_pos hlt, hs]

/-- Unfolding of `get_list_action` during SETUP once the active player
has placed the whole roster: no actions. -/
theorem get_list_action_setup_full (g : Battleship) (p : PlayerState)
    (hp : g.state.players[g.state.idx_player_active]? = some p)
    (hphase : g.state.phase = GamePhase.SETUP)
    (hnlt : ¬ p.ships.length < g.ships.length) :
    g.get_list_action = Except.ok [] := by
  simp only [Battleship.get_list_action, listGet, hp, hphase]
  rw [dif_neg hnlt]

/-- Unfolding of `get_list_action` during RUNNING. -/
theorem get_list_action_running (g : Battleship) (p : PlayerState)
    (hp : g.state.players[g.state.idx_player_active]? = some p)
    (hphase : g.state.phase = GamePhase.RUNNING) :
    g.get_list_action =
      Except.ok ((List.range g.grid_size).flatMap (fun i =>
        (List.range g.grid_size).filterMap (fun j =>
          if cell i j ∈ p.shots then none
          else some { action_type := ActionType.SHOOT, ship_name := none
                    , location := [cell i j] }))) := by
  simp only [Battleship.get_list_action, listGet, hp, hphase]

/-! ## Claims -/

/-- C8: a SET_SHIP action whose `ship_name` matches no ship of the
canonical roster makes `apply_action` fail (the `next(...)` lookup
raises; the spec calls this condition `UnknownShipError`) rather than
silently succeed. -/
theorem claim_C8_unknown_ship_fails (g : Battleship) (a : BattleshipAction) (p : PlayerState)
    (hp : g.state.players[g.state.idx_player_active]? = some p)
    (ht : a.action_type = ActionType.SET_SHIP)
    (habs : ∀ s ∈ g.ships, some s.name ≠ a.ship_name) :
    g.apply_action a = Except.error PyError.unknownShip := by
  have hfind : g.ships.find? (fun s => some s.name == a.ship_name) = none :=
    List.find?_eq_none.mpr (fun s hs => by simpa using habs s hs)
  simp [Battleship.apply_action, listGet, hp, ht, hfind]

/-- Witness for C8 at a concrete input: a fresh engine rejects a
SET_SHIP for the unknown name "Dreadnought". -/
theorem claim_C8_witness :
    Battleship.init.apply_action
      { action_type := ActionType.SET_SHIP, ship_name := some "Dreadnought", location := [] } =
      Except.error PyError.unknownShip :=
  claim_C8_unknown_ship_fails Battleship.init _ _ rfl rfl (by decide)

/-- C10: in a RUNNING state whose active player faces an opponent with
an empty ship list, any SHOOT action immediately finishes the game with
the shooter as winner, the all-ships-empty check being vacuously true
over zero ships. -/
theorem claim_C10_vacuous_win (g : Battleship) (a : BattleshipAction) (p q : PlayerState)
    (t : String) (ts : List String)
    (_hphase : g.state.phase = GamePhase.RUNNING)
    (hp : g.state.players[g.state.idx_player_active]? = some p)
    (hq : g.state.players[1 - g.state.idx_player_active]? = some q)
    (hships : q.ships = [])
    (ht : a.action_type = ActionType.SHOOT)
    (hloc : a.location = t :: ts) :
    ∃ g', g.apply_action a = Except.ok g' ∧
      g'.state.phase = GamePhase.FINISHED ∧
      g'.state.winner = some g.state.idx_player_active := by
  simp only [Battleship.apply_action, listGet, hp, hq, ht, hloc, hships]
  refine ⟨_, rfl, ?_, ?_⟩ <;> simp [processShot, finishTurn]

/-- Witness for C10 at a concrete input: shooting B1 in
`emptyFleetState` ends the game at once with winner 0. -/
theorem claim_C10_witness :
    ∃ g', (Battleship.init.set_state emptyFleetState).apply_action
        { action_type := ActionType.SHOOT, ship_name := none, location := ["B1"] } =
        Except.ok g' ∧
      g'.state.phase = GamePhase.FINISHED ∧
      g'.state.winner = some (Battleship.init.set_state emptyFleetState).state.idx_player_active :=
  claim_C10_vacuous_win _ _ _ _ "B1" [] rfl rfl rfl rfl rfl rfl

/-- C2: evaluation of `get_player_view` at a concrete engine showing
the defect: before the call the canonical state holds player 1's
Destroyer at A1, A2; `get_player_view 0` returns the engine's own
state object with the opponent's locations cleared, so a subsequent
`get_state` shows the masked (empty) location — the canonical state
was mutated, contradicting the claim that it is left unchanged. -/
theorem claim_C2_view_mutates_state :
    ∃ v g',
      (Battleship.init.set_state oneShipState).get_player_view 0 = Except.ok (v, g') ∧
      (Battleship.init.set_state oneShipState).get_state.players[1]? =
        some { name := "Player 2"
             , ships := [{ name := "Destroyer", length := 2, location := ["A1", "A2"] }]
             , shots := [], successful_shots := [] } ∧
      g'.get_state.players[1]? =
        some { name := "Player 2"
             , ships := [{ name := "Destroyer", length := 2, location := [] }]
             , shots := [], successful_shots := [] } ∧
      v = g'.get_state :=
  ⟨_, _, rfl, rfl, rfl, rfl⟩

/-- C1 counterexample: from a concrete state with player 0 active and
holding 4 ships while player 1 holds 5, the SET_SHIP that completes
player 0's roster moves the phase to RUNNING — but the trailing turn
advance then fires (the phase is RUNNING when it is checked), so the
active player index flips from 0 to 1 instead of staying 0. -/
theorem claim_C1_counterexample :
    ∃ g',
      (Battleship.init.set_state fourFiveState).apply_action
        { action_type := ActionType.SET_SHIP, ship_name := some "Destroyer"
        , location := ["E1", "E2"] } = Except.ok g' ∧
      g'.state.players.map (fun p => p.ships.length) = [5, 5] ∧
      g'.state.phase = GamePhase.RUNNING ∧
      fourFiveState.idx_player_active = 0 ∧
      g'.state.idx_player_active = 1 :=
  ⟨_, rfl, rfl, rfl, rfl, rfl⟩

/-- C1 amended: a SET_SHIP action after which both players hold the
full roster sets the phase to RUNNING, and the active player index is
then flipped by the trailing turn advance (it is not left unchanged):
the new index is `1 -` the pre-transition value. -/
theorem claim_C1_amended_flip (g : Battleship) (a : BattleshipAction)
    (p q : PlayerState) (s : Ship)
    (hlen2 : g.state.players.length = 2)
    (hp : g.state.players[g.state.idx_player_active]? = some p)
    (hq : g.state.players[1 - g.state.idx_player_active]? = some q)
    (ht : a.action_type = ActionType.SET_SHIP)
    (hfind : g.ships.find? (fun s => some s.name == a.ship_name) = some s)
    (hcap : p.ships.length + 1 = g.ships.length)
    (hother : q.ships.length = g.ships.length) :
    ∃ g', g.apply_action a = Except.ok g' ∧
      g'.state.phase = GamePhase.RUNNING ∧
      g'.state.idx_player_active = 1 - g.state.idx_player_active := by
  have hidx : g.state.idx_player_active < 2 := hlen2 ▸ elem?_lt_length hp
  obtain ⟨x, y, hxy⟩ := List.length_eq_two.mp hlen2
  simp only [Battleship.apply_action, listGet, hp, ht, hfind]
  have hcond :
      (p.ships.length + 1 ==
          (setFirstLocation a.ship_name a.location g.ships).length
        && (g.state.players.set g.state.idx_player_active
              { p with ships := p.ships ++ [{ s with location := a.location }] }).all
            (fun pl => pl.ships.length ==
              (setFirstLocation a.ship_name a.location g.ships).length)) = true := by
    rw [setFirstLocation_length]
    interval_cases h : g.state.idx_player_active
    · rw [hxy] at hp hq ⊢
      simp at hp hq
      subst hp; subst hq
      simp [List.all_cons, hcap, hother]
    · rw [hxy] at hp hq ⊢
      simp at hp hq
      subst hp; subst hq
      simp [List.all_cons, hcap, hother]
  refine ⟨_, rfl, ?_, ?_⟩ <;>
    simp [List.length_append, hcond, finishTurn]

/-- Witness for the amended C1 at the concrete `fourFiveState`
input. -/
theorem claim_C1_amended_witness :
    ∃ g',
      (Battleship.init.set_state fourFiveState).apply_action
        { action_type := ActionType.SET_SHIP, ship_name := some "Destroyer"
        , location := ["E1", "E2"] } = Except.ok g' ∧
      g'.state.phase = GamePhase.RUNNING ∧
      g'.state.idx_player_active =
        1 - (Battleship.init.set_state fourFiveState).state.idx_player_active :=
  claim_C1_amended_flip _ _ _ _ _ rfl rfl rfl rfl rfl rfl rfl

/-- C3: a SHOOT applied in phase RUNNING leaves the phase FINISHED
exactly when every opponent ship's location is empty after the shot is
processed; in that case the winner is set to the shooter's index and
the active player index is not flipped. -/
theorem claim_C3_win_condition (g : Battleship) (a : BattleshipAction)
    (p q : PlayerState) (t : String) (ts : List String)
    (hphase : g.state.phase = GamePhase.RUNNING)
    (hp : g.state.players[g.state.idx_player_active]? = some p)
    (hq : g.state.players[1 - g.state.idx_player_active]? = some q)
    (ht : a.action_type = ActionType.SHOOT)
    (hloc : a.location = t :: ts) :
    ∃ g' q', g.apply_action a = Except.ok g' ∧
      g'.state.players[1 - g.state.idx_player_active]? = some q' ∧
      (g'.state.phase = GamePhase.FINISHED ↔ ∀ s ∈ q'.ships, s.location = []) ∧
      ((∀ s ∈ q'.ships, s.location = []) →
        g'.state.winner = some g.state.idx_player_active ∧
        g'.state.idx_player_active = g.state.idx_player_active) := by
  have happ := apply_action_shoot g a p q t ts hp hq ht hloc
  have hlt : 1 - g.state.idx_player_active < g.state.players.length := elem?_lt_length hq
  refine ⟨_, { q with ships := (processShot t q.ships).1 }, happ, ?_, ?_, ?_⟩
  · rw [finishTurn_players]
    exact elem?_set_self _ _ _ (by rw [length_set_eq]; exact hlt)
  · rw [finishTurn_phase]
    show (if (processShot t q.ships).1.all (fun s => s.location.length == 0)
          then GamePhase.FINISHED else g.state.phase) = GamePhase.FINISHED ↔ _
    by_cases hfin : ((processShot t q.ships).1.all fun s => s.location.length == 0) = true
    · rw [if_pos hfin]
      simp only [List.all_eq_true, beq_iff_eq, List.length_eq_zero] at hfin
      simpa using hfin
    · rw [if_neg hfin, hphase]
      constructor
      · intro hcontra; exact absurd hcontra (by decide)
      · intro hall
        exact absurd (by simpa [List.all_eq_true, List.length_eq_zero] using hall) hfin
  · intro hall
    have hfin : ((processShot t q.ships).1.all fun s => s.location.length == 0) = true := by
      simp only [List.all_eq_true, beq_iff_eq, List.length_eq_zero]
      exact fun s hs => hall s hs
    constructor
    · rw [finishTurn_winner]
      show (if (processShot t q.ships).1.all (fun s => s.location.length == 0)
            then some g.state.idx_player_active else g.state.winner) = _
      rw [if_pos hfin]
    · rw [finishTurn_idx]
      show (if (if (processShot t q.ships).1.all (fun s => s.location.length == 0)
                then GamePhase.FINISHED else g.state.phase) = GamePhase.RUNNING
            then _ else _) = _
      rw [if_pos hfin]
      simp

/-- Witness for C3 at a concrete input: player 0 shoots A1 against the
`oneShipState` Destroyer at A1, A2; one cell remains, so the game does
not finish. -/
theorem claim_C3_witness :
    ∃ g' q', (Battleship.init.set_state oneShipState).apply_action
        { action_type := ActionType.SHOOT, ship_name := none, location := ["A1"] } =
        Except.ok g' ∧
      g'.state.players[1 - (Battleship.init.set_state oneShipState).state.idx_player_active]? =
        some q' ∧
      (g'.state.phase = GamePhase.FINISHED ↔ ∀ s ∈ q'.ships, s.location = []) ∧
      ((∀ s ∈ q'.ships, s.location = []) →
        g'.state.winner = some (Battleship.init.set_state oneShipState).state.idx_player_active ∧
        g'.state.idx_player_active =
          (Battleship.init.set_state oneShipState).state.idx_player_active) :=
  claim_C3_win_condition _ _ _ _ "A1" [] rfl rfl rfl rfl rfl

/-- C4 counterexample: in `overlapState` the opponent's list holds the
Destroyer before the Carrier, both containing A1, while in the
canonical roster the Carrier (index 0) precedes the Destroyer
(index 4).  Shooting A1 removes the coordinate from the Destroyer —
the first *list* entry — and the Carrier, the first such ship in
roster order, still contains A1, refuting the claim as stated. -/
theorem claim_C4_counterexample :
    Battleship.init.ships.map Ship.name =
      ["Carrier", "Battleship", "Cruiser", "Submarine", "Destroyer"] ∧
    ∃ g', (Battleship.init.set_state overlapState).apply_action
        { action_type := ActionType.SHOOT, ship_name := none, location := ["A1"] } =
        Except.ok g' ∧
      g'.state.players[1]? =
        some { name := "Player 2"
             , ships :=
                 [ { name := "Destroyer", length := 2, location := ["A2"] }
                 , { name := "Carrier", length := 5, location := ["A1", "B1", "B2", "B3", "B4"] } ]
             , shots := [], successful_shots := [] } ∧
      g'.state.players[0]? =
        some { name := "Player 1", ships := [], shots := ["A1"], successful_shots := ["A1"] } :=
  ⟨rfl, _, rfl, rfl, rfl⟩

/-- C4 amended: a SHOOT at `t` in phase RUNNING appends `t` to the
active player's shots; if some opponent ship contains `t` then, for
the first such ship in the order of the opponent's ship list (which
coincides with roster order for ships placed via `get_list_action`),
`t` is appended to `successful_shots` and removed from exactly that
ship's location; if no opponent ship contains `t`, `successful_shots`
and the opponent's ships are unchanged while shots still grows. -/
theorem claim_C4_amended_hit_bookkeeping (g : Battleship) (a : BattleshipAction)
    (p q : PlayerState) (t : String) (ts : List String)
    (_hphase : g.state.phase = GamePhase.RUNNING)
    (hp : g.state.players[g.state.idx_player_active]? = some p)
    (hq : g.state.players[1 - g.state.idx_player_active]? = some q)
    (ht : a.action_type = ActionType.SHOOT)
    (hloc : a.location = t :: ts) :
    ∃ g' p' q', g.apply_action a = Except.ok g' ∧
      g'.state.players[g.state.idx_player_active]? = some p' ∧
      g'.state.players[1 - g.state.idx_player_active]? = some q' ∧
      p'.shots = p.shots ++ [t] ∧
      (∀ pre s post, q.ships = pre ++ s :: post →
        (∀ u ∈ pre, t ∉ u.location) → t ∈ s.location →
        p'.successful_shots = p.successful_shots ++ [t] ∧
        q'.ships = pre ++ { s with location := s.location.erase t } :: post) ∧
      ((∀ s ∈ q.ships, t ∉ s.location) →
        p'.successful_shots = p.successful_shots ∧ q'.ships = q.ships) := by
  have happ := apply_action_shoot g a p q t ts hp hq ht hloc
  have hltp : g.state.idx_player_active < g.state.players.length := elem?_lt_length hp
  have hltq : 1 - g.state.idx_player_active < g.state.players.length := elem?_lt_length hq
  refine ⟨_, shooterAfter p t (processShot t q.ships).2,
    { q with ships := (processShot t q.ships).1 }, happ, ?_, ?_, ?_, ?_, ?_⟩
  · rw [finishTurn_players,
      elem?_set_ne _ _ _ _ one_sub_ne,
      elem?_set_self _ _ _ (by exact hltp)]
  · rw [finishTurn_players]
    exact elem?_set_self _ _ _ (by rw [length_set_eq]; exact hltq)
  · unfold shooterAfter; split <;> rfl
  · intro pre s post hdecomp hpre hs
    have hps : processShot t q.ships =
        (pre ++ { s with location := s.location.erase t } :: post, true) := by
      rw [hdecomp]; exact processShot_hit t pre s post hpre hs
    constructor
    · simp [shooterAfter, hps]
    · simp [hps]
  · intro hmiss
    have hps : processShot t q.ships = (q.ships, false) := processShot_miss t q.ships hmiss
    constructor
    · simp [shooterAfter, hps]
    · simp [hps]

/-- Witness for the amended C4 at the concrete `overlapState` input. -/
theorem claim_C4_amended_witness :
    ∃ g' p' q', (Battleship.init.set_state overlapState).apply_action
        { action_type := ActionType.SHOOT, ship_name := none, location := ["A1"] } =
        Except.ok g' ∧
      g'.state.players[(Battleship.init.set_state overlapState).state.idx_player_active]? =
        some p' ∧
      g'.state.players[1 - (Battleship.init.set_state overlapState).state.idx_player_active]? =
        some q' ∧
      p'.shots = [] ++ ["A1"] ∧
      (∀ pre s post,
        [ ({ name := "Destroyer", length := 2, location := ["A1", "A2"] } : Ship)
        , { name := "Carrier", length := 5, location := ["A1", "B1", "B2", "B3", "B4"] } ] =
          pre ++ s :: post →
        (∀ u ∈ pre, "A1" ∉ u.location) → "A1" ∈ s.location →
        p'.successful_shots = [] ++ ["A1"] ∧
        q'.ships = pre ++ { s with location := s.location.erase "A1" } :: post) ∧
      ((∀ s ∈
          [ ({ name := "Destroyer", length := 2, location := ["A1", "A2"] } : Ship)
          , { name := "Carrier", length := 5, location := ["A1", "B1", "B2", "B3", "B4"] } ],
          "A1" ∉ s.location) →
        p'.successful_shots = [] ∧
        q'.ships =
          [ { name := "Destroyer", length := 2, location := ["A1", "A2"] }
          , { name := "Carrier", length := 5, location := ["A1", "B1", "B2", "B3", "B4"] } ]) :=
  claim_C4_amended_hit_bookkeeping (Battleship.init.set_state overlapState)
    { action_type := ActionType.SHOOT, ship_name := none, location := ["A1"] }
    { name := "Player 1", ships := [], shots := [], successful_shots := [] }
    { name := "Player 2"
    , ships :=
        [ { name := "Destroyer", length := 2, location := ["A1", "A2"] }
        , { name := "Carrier", length := 5, location := ["A1", "B1", "B2", "B3", "B4"] } ]
    , shots := [], successful_shots := [] }
    "A1" [] rfl rfl rfl rfl rfl

/-- C6: in SETUP, while the active player has placed fewer ships than
the roster holds, `get_list_action` emits SET_SHIP actions only for
the next roster ship (indexed by the count already placed), one action
for every row and every starting column whose horizontal run of the
ship's length fits in the 10-column grid, and every generated location
is such an in-grid horizontal run. -/
theorem claim_C6_setup_action_generation (g : Battleship) (p : PlayerState) (ship : Ship)
    (hp : g.state.players[g.state.idx_player_active]? = some p)
    (hphase : g.state.phase = GamePhase.SETUP)
    (hlt : p.ships.length < g.ships.length)
    (hship : g.ships[p.ships.length]? = some ship)
    (hgrid : g.grid_size = 10) :
    ∃ l, g.get_list_action = Except.ok l ∧
      (∀ a ∈ l, a.action_type = ActionType.SET_SHIP ∧ a.ship_name = some ship.name ∧
        ∃ i j, i < 10 ∧ j + ship.length ≤ 10 ∧
          a.location = (List.range' j ship.length).map (fun k => cell i k)) ∧
      (∀ i j, i < 10 → j + ship.length ≤ 10 →
        ({ action_type := ActionType.SET_SHIP, ship_name := some ship.name
         , location := (List.range' j ship.length).map (fun k => cell i k) } :
            BattleshipAction) ∈ l) := by
  refine ⟨_, get_list_action_setup g p ship hp hphase hlt hship, ?_, ?_⟩
  · intro a ha
    rw [hgrid] at ha
    simp only [List.mem_flatMap, List.mem_map, List.mem_range] at ha
    obtain ⟨i, hi, j, hj, rfl⟩ := ha
    exact ⟨rfl, rfl, i, j, hi, by omega, rfl⟩
  · intro i j hi hj
    rw [hgrid]
    simp only [List.mem_flatMap, List.mem_map, List.mem_range]
    exact ⟨i, hi, j, by omega, rfl⟩

/-- Witness for C6: a fresh engine (player 0 active, no ships placed,
next roster ship the length-5 Carrier). -/
theorem claim_C6_witness :
    ∃ l, Battleship.init.get_list_action = Except.ok l ∧
      (∀ a ∈ l, a.action_type = ActionType.SET_SHIP ∧
        a.ship_name = some ({ name := "Carrier", length := 5, location := [] } : Ship).name ∧
        ∃ i j, i < 10 ∧ j + ({ name := "Carrier", length := 5, location := [] } : Ship).length ≤ 10 ∧
          a.location = (List.range' j ({ name := "Carrier", length := 5, location := [] } : Ship).length).map
            (fun k => cell i k)) ∧
      (∀ i j, i < 10 →
        j + ({ name := "Carrier", length := 5, location := [] } : Ship).length ≤ 10 →
        ({ action_type := ActionType.SET_SHIP
         , ship_name := some ({ name := "Carrier", length := 5, location := [] } : Ship).name
         , location := (List.range' j ({ name := "Carrier", length := 5, location := [] } : Ship).length).map
             (fun k => cell i k) } : BattleshipAction) ∈ l) :=
  claim_C6_setup_action_generation Battleship.init
    { name := "Player 1", ships := [], shots := [], successful_shots := [] }
    { name := "Carrier", length := 5, location := [] }
    rfl rfl (by decide) rfl rfl

/-- C7: during RUNNING, `get_list_action` returns a SHOOT action for
exactly the grid cells not already in the active player's shots, and
during FINISHED it returns the empty list. -/
theorem claim_C7_running_and_finished_actions (g : Battleship) (p : PlayerState)
    (hp : g.state.players[g.state.idx_player_active]? = some p)
    (hgrid : g.grid_size = 10) :
    (g.state.phase = GamePhase.RUNNING →
      ∃ l, g.get_list_action = Except.ok l ∧
        ∀ a, a ∈ l ↔ ∃ i j, i < 10 ∧ j < 10 ∧ cell i j ∉ p.shots ∧
          a = { action_type := ActionType.SHOOT, ship_name := none
              , location := [cell i j] }) ∧
    (g.state.phase = GamePhase.FINISHED → g.get_list_action = Except.ok []) := by
  constructor
  · intro hphase
    refine ⟨_, get_list_action_running g p hp hphase, ?_⟩
    intro a
    rw [hgrid]
    simp only [List.mem_flatMap, List.mem_filterMap, List.mem_range]
    constructor
    · rintro ⟨i, hi, j, hj, hf⟩
      by_cases hc : cell i j ∈ p.shots
      · rw [if_pos hc] at hf
        exact absurd hf (by simp)
      · rw [if_neg hc] at hf
        exact ⟨i, j, hi, hj, hc, (Option.some.inj hf).symm⟩
    · rintro ⟨i, j, hi, hj, hc, rfl⟩
      exact ⟨i, hi, j, hj, by rw [if_neg hc]⟩
  · intro hphase
    simp only [Battleship.get_list_action, listGet, hp, hphase]

/-- Witness for C7 at the concrete `emptyFleetState` (RUNNING, active
player 0 with shots = [A1]). -/
theorem claim_C7_witness :
    ((Battleship.init.set_state emptyFleetState).state.phase = GamePhase.RUNNING →
      ∃ l, (Battleship.init.set_state emptyFleetState).get_list_action = Except.ok l ∧
        ∀ a, a ∈ l ↔ ∃ i j, i < 10 ∧ j < 10 ∧
          cell i j ∉ ({ name := "Player 1", ships := [], shots := ["A1"]
                      , successful_shots := [] } : PlayerState).shots ∧
          a = { action_type := ActionType.SHOOT, ship_name := none
              , location := [cell i j] }) ∧
    ((Battleship.init.set_state emptyFleetState).state.phase = GamePhase.FINISHED →
      (Battleship.init.set_state emptyFleetState).get_list_action = Except.ok []) :=
  claim_C7_running_and_finished_actions _
    { name := "Player 1", ships := [], shots := ["A1"], successful_shots := [] }
    rfl rfl

/-- Structure of any successful `apply_action` step from a state with
player 0 active, exactly two players, player 1 owning no ships, and a
phase other than RUNNING (the configuration every state reachable from
construction has): player 0 stays active, player 1's record is
untouched, the roster length is preserved, a SET_SHIP leaves phase and
winner unchanged, and a SHOOT finishes the game at once with winner 0
(the all-opponent-ships-empty check is vacuous). -/
theorem step_structure (g g' : Battleship) (a : BattleshipAction) (x y : PlayerState)
    (hidx : g.state.idx_player_active = 0)
    (hxy : g.state.players = [x, y])
    (hy : y.ships = [])
    (hlen : g.ships.length = 5)
    (hnr : g.state.phase ≠ GamePhase.RUNNING)
    (hstep : g.apply_action a = Except.ok g') :
    g'.state.idx_player_active = 0 ∧
    (∃ x', g'.state.players = [x', y]) ∧
    g'.ships.length = 5 ∧
    (a.action_type = ActionType.SET_SHIP →
      g'.state.phase = g.state.phase ∧ g'.state.winner = g.state.winner) ∧
    (a.action_type = ActionType.SHOOT →
      g'.state.phase = GamePhase.FINISHED ∧ g'.state.winner = some 0) := by
  have hpx : g.state.players[g.state.idx_player_active]? = some x := by
    rw [hidx, hxy]; rfl
  cases hta : a.action_type with
  | SET_SHIP =>
    cases hfind : g.ships.find? (fun s => some s.name == a.ship_name) with
    | none =>
      simp only [Battleship.apply_action, listGet, hpx, hta, hfind] at hstep
      exact absurd hstep (by simp)
    | some s =>
      simp only [Battleship.apply_action, listGet, hpx, hta, hfind] at hstep
      rw [hidx, hxy] at hstep
      simp only [List.set_cons_zero, Except.ok.injEq] at hstep
      have hcond :
          ((x.ships ++ [{ s with location := a.location }]).length ==
              (setFirstLocation a.ship_name a.location g.ships).length
            && ([{ x with ships := x.ships ++ [{ s with location := a.location }] }, y].all
                (fun p => p.ships.length ==
                  (setFirstLocation a.ship_name a.location g.ships).length))) = false := by
        rw [setFirstLocation_length, hlen]
        simp [List.all_cons, hy]
      simp only [hcond, Bool.false_eq_true, if_false] at hstep
      subst hstep
      refine ⟨?_, ?_, ?_, fun _ => ⟨?_, ?_⟩, fun hc => absurd hc (by decide)⟩
      · rw [finishTurn_idx]
        simp [hnr]
      · exact ⟨_, by rw [finishTurn_players]⟩
      · rw [finishTurn_ships]
        show (setFirstLocation a.ship_name a.location g.ships).length = 5
        rw [setFirstLocation_length, hlen]
      · rw [finishTurn_phase]
      · rw [finishTurn_winner]
  | SHOOT =>
    cases hloc : a.location with
    | nil =>
      simp only [Battleship.apply_action, listGet, hpx, hta, hloc] at hstep
      exact absurd hstep (by simp)
    | cons t ts =>
      have hqy : g.state.players[1 - g.state.idx_player_active]? = some y := by
        rw [hidx, hxy]; rfl
      have happ := apply_action_shoot g a x y t ts hpx hqy hta hloc
      rw [happ] at hstep
      simp only [Except.ok.injEq] at hstep
      subst hstep
      have hps : processShot t y.ships = ([], false) := by rw [hy]; rfl
      have hyy : ({ y with ships := ([] : List Ship) } : PlayerState) = y := by
        obtain ⟨n, sh, s1, s2⟩ := y
        simp only at hy
        subst hy
        rfl
      refine ⟨?_, ?_, ?_, fun hc => absurd hc (by decide), fun _ => ⟨?_, ?_⟩⟩
      · rw [finishTurn_idx]
        simp [hps, hidx]
      · refine ⟨shooterAfter x t false, ?_⟩
        rw [finishTurn_players]
        show ((g.state.players.set g.state.idx_player_active
          (shooterAfter x t (processShot t y.ships).2)).set (1 - g.state.idx_player_active)
          { y with ships := (processShot t y.ships).1 }) = _
        rw [hidx, hxy]
        simp only [hps, List.set_cons_zero, List.set_cons_succ]
        exact congrArg (fun z => [shooterAfter x t false, z]) hyy
      · rw [finishTurn_ships]
        exact hlen
      · rw [finishTurn_phase]
        simp [hps]
      · rw [finishTurn_winner]
        simp [hps, hidx]

/-- Invariant of all states reachable from construction by arbitrary
successful `apply_action` steps: player 0 stays active, player 1 never
receives a ship, the roster keeps its 5 entries, and the state is
either still in SETUP with no winner or FINISHED with winner 0. -/
theorem reachable_inv (g : Battleship) (h : Reachable g) :
    g.state.idx_player_active = 0 ∧
    (∃ x y, g.state.players = [x, y] ∧ y.ships = []) ∧
    g.ships.length = 5 ∧
    ((g.state.phase = GamePhase.SETUP ∧ g.state.winner = none) ∨
     (g.state.phase = GamePhase.FINISHED ∧ g.state.winner = some 0)) := by
  induction h with
  | init => exact ⟨rfl, ⟨_, _, rfl, rfl⟩, rfl, Or.inl ⟨rfl, rfl⟩⟩
  | @step g g' a _ hstep ih =>
    obtain ⟨hidx, ⟨x, y, hxy, hy⟩, hlen, hph⟩ := ih
    have hnr : g.state.phase ≠ GamePhase.RUNNING := by
      rcases hph with ⟨h1, _⟩ | ⟨h1, _⟩ <;> simp [h1]
    obtain ⟨hidx', ⟨x', hxy'⟩, hlen', hset, hshoot⟩ :=
      step_structure g g' a x y hidx hxy hy hlen hnr hstep
    refine ⟨hidx', ⟨x', y, hxy', hy⟩, hlen', ?_⟩
    cases hta : a.action_type with
    | SET_SHIP =>
      obtain ⟨hp', hw'⟩ := hset hta
      rw [hp', hw']
      exact hph
    | SHOOT =>
      exact Or.inr (hshoot hta)

/-- C5: in every state reachable from engine construction by
`apply_action` steps alone (no `set_state`), the winner field is set
exactly when the phase is FINISHED. -/
theorem claim_C5_winner_iff_finished (g : Battleship) (h : Reachable g) :
    g.state.winner.isSome ↔ g.state.phase = GamePhase.FINISHED := by
  obtain ⟨_, _, _, hph⟩ := reachable_inv g h
  rcases hph with ⟨h1, h2⟩ | ⟨h1, h2⟩ <;> rw [h1, h2] <;> simp

/-- Witness for C5 at the concrete initial engine. -/
theorem claim_C5_witness :
    Battleship.init.state.winner.isSome ↔
      Battleship.init.state.phase = GamePhase.FINISHED :=
  claim_C5_winner_iff_finished Battleship.init Reachable.init

/-- Invariant of all states reachable from construction by steps
restricted to actions from `get_list_action`: the phase never leaves
SETUP, player 0 stays active, and player 1's ship list stays empty. -/
theorem reachable_legal_inv (g : Battleship) (h : ReachableLegal g) :
    g.state.phase = GamePhase.SETUP ∧
    g.state.idx_player_active = 0 ∧
    (∃ x y, g.state.players = [x, y] ∧ y.ships = []) ∧
    g.ships.length = 5 := by
  induction h with
  | init => exact ⟨rfl, rfl, ⟨_, _, rfl, rfl⟩, rfl⟩
  | @step g g' a l _ hla hmem hstep ih =>
    obtain ⟨hph, hidx, ⟨x, y, hxy, hy⟩, hlen⟩ := ih
    have hpx : g.state.players[g.state.idx_player_active]? = some x := by
      rw [hidx, hxy]; rfl
    have hnr : g.state.phase ≠ GamePhase.RUNNING := by simp [hph]
    by_cases hlt : x.ships.length < g.ships.length
    · have hship : g.ships[x.ships.length]? = some (g.ships.get ⟨x.ships.length, hlt⟩) := by
        simp [List.getElem?_eq_getElem hlt]
      have hla' := get_list_action_setup g x _ hpx hph hlt hship
      rw [hla'] at hla
      have hleq : l = _ := (Except.ok.inj hla).symm
      subst hleq
      simp only [List.mem_flatMap, List.mem_map, List.mem_range] at hmem
      obtain ⟨i, _, j, _, rfl⟩ := hmem
      obtain ⟨hidx', ⟨x', hxy'⟩, hlen', hset, _⟩ :=
        step_structure g g' _ x y hidx hxy hy hlen hnr hstep
      obtain ⟨hp', _⟩ := hset rfl
      exact ⟨hp'.trans hph, hidx', ⟨x', y, hxy', hy⟩, hlen'⟩
    · have hla' := get_list_action_setup_full g x hpx hph hlt
      rw [hla'] at hla
      have hleq : l = [] := (Except.ok.inj hla).symm
      subst hleq
      exact absurd hmem (List.not_mem_nil _)

/-- C9: starting from a fresh engine and applying only actions offered
by `get_list_action` (no `set_state`), the phase never leaves SETUP
(so RUNNING and FINISHED are unreachable), the active player index
stays 0 (player 1 never becomes active), and player 1's ship list
stays empty. -/
theorem claim_C9_setup_starvation (g : Battleship) (h : ReachableLegal g) :
    g.state.phase = GamePhase.SETUP ∧
    g.state.idx_player_active = 0 ∧
    (∀ q, g.state.players[1]? = some q → q.ships = []) := by
  obtain ⟨hph, hidx, ⟨x, y, hxy, hy⟩, _⟩ := reachable_legal_inv g h
  refine ⟨hph, hidx, ?_⟩
  intro q hq
  rw [hxy] at hq
  simp at hq
  rw [← hq]
  exact hy

/-- Witness for C9 at the concrete initial engine. -/
theorem claim_C9_witness :
    Battleship.init.state.phase = GamePhase.SETUP ∧
    Battleship.init.state.idx_player_active = 0 ∧
    (∀ q, Battleship.init.state.players[1]? = some q → q.ships = []) :=
  claim_C9_setup_starvation Battleship.init ReachableLegal.init

end BattleshipGame
